import Mathlib

/-!
Shallow embedding of the szlaban request-approval server (main.go).

The core is an in-memory registry mapping request ids (UUID strings) to
`Request` records, with four operations driven by HTTP handlers:
`handleServerRequestKey` (create), `handleAdminApproveRequest` (approve),
`handleAdminDenyRequest` (deny), `handleServerGetKey` (retrieve), plus a
periodic `cleanupExpiredRequests` sweep.

Modelling conventions:
- Time is `Nat` (time units since some epoch); `time.Now()` at a call site
  becomes an explicit `now` argument, `req.CreatedAt` is a `Nat` field, and
  `time.Since(req.CreatedAt) > approvalTimeout` becomes
  `now - req.createdAt > timeout` on `Nat`.
- The `APPROVAL_TIMEOUT` environment string is parsed by
  `time.ParseDuration` inside `isRequestExpired` on every call, panicking on
  error; we pass the parse result as `cfg : Option Nat` (`none` = unparseable)
  and model the panic as `Except.error`.  Handlers run under `gin.Recovery`,
  so a panic aborts only the one request; the `Except.error` result of an
  operation stands for that aborted request.
- The Go map `pendingRequests` becomes an association list
  `List (String × Request)`; map lookup takes the first binding, map
  assignment conses a fresh binding, map delete removes all bindings of the
  key, and the in-place pointer mutation `req.Approved = true` updates the
  value at the key.  Reachable states never have duplicate keys.
- The randomly generated `uuid.New().String()` id becomes a parameter of the
  create operation; freshness is a hypothesis where a claim needs it.
-/

/-- A key request, from the Go struct `Request` (ServerID, Approved,
CreatedAt, IP). -/
structure Request where
  serverID : String
  approved : Bool
  createdAt : Nat
  ip : String
deriving DecidableEq, Repr

/-- The registry `pendingRequests`, as an association list from id strings to
requests. -/
abbrev Registry := List (String × Request)

/-- Map lookup `pendingRequests[reqID]`: the value of the first binding of
`id`, if any. -/
def lookupReq : Registry → String → Option Request
  | [], _ => none
  | (k, r) :: rest, id => if k = id then some r else lookupReq rest id

/-- Map deletion `delete(pendingRequests, reqID)`: drop every binding of
`id`. -/
def eraseReq (s : Registry) (id : String) : Registry :=
  s.filter fun p => decide (p.1 ≠ id)

/-- The pointer mutation `req.Approved = true`: set the `approved` field of
the value bound to `id`, leaving every other binding untouched.  (On the
duplicate-free lists that model reachable map states this touches exactly
the one binding the lookup found.) -/
def setApproved : Registry → String → Registry
  | [], _ => []
  | (k, r) :: rest, id =>
    if k = id then (k, { r with approved := true }) :: setApproved rest id
    else (k, r) :: setApproved rest id

/-- A hex digit as accepted by the `xtob` table of `github.com/google/uuid`
(`0`-`9`, `a`-`f`, `A`-`F`).  Modelled from that dependency, which is not
part of this repository's sources. -/
def isHexDig (c : Char) : Bool :=
  (decide ('0' ≤ c) && decide (c ≤ '9')) ||
  (decide ('a' ≤ c) && decide (c ≤ 'f')) ||
  (decide ('A' ≤ c) && decide (c ≤ 'F'))

/-- Two hex digits at positions `x`, `x+1` (Go `xtob(s[x], s[x+1])`
succeeding).  Out-of-range positions read a non-hex placeholder. -/
def hexPairOk (cs : List Char) (x : Nat) : Bool :=
  isHexDig (cs.getD x ' ') && isHexDig (cs.getD (x + 1) ' ')

/-- The canonical 36-character form
`xxxxxxxx-xxxx-xxxx-xxxx-xxxxxxxxxxxx`: hyphens at 8, 13, 18, 23 and hex
digit pairs at the sixteen offsets listed in `uuid.Parse`. -/
def uuidCanonicalOk (cs : List Char) : Bool :=
  (cs.getD 8 ' ' = '-' && cs.getD 13 ' ' = '-' &&
   cs.getD 18 ' ' = '-' && cs.getD 23 ' ' = '-') &&
  ([0, 2, 4, 6, 9, 11, 14, 16, 19, 21, 24, 26, 28, 30, 32, 34].all
    fun x => hexPairOk cs x)

/-- Syntactic id validation, modelled from `uuid.Parse` of
`github.com/google/uuid` (a dependency, not in this repository's sources):
`true` iff `Parse` returns no error.  Length 36 is the canonical form;
length 45 requires an ASCII-case-insensitive `urn:uuid:` prefix; length 38
strips the first character and validates the next 36 (`uuid.Parse` never
inspects the surrounding brace characters themselves); length 32 is 16 raw
hex pairs; every other length is invalid.  Ids are treated as ASCII, one
`Char` per Go byte. -/
def uuidParseOk (s : String) : Bool :=
  let cs := s.data
  if cs.length = 36 then uuidCanonicalOk cs
  else if cs.length = 45 then
    ((cs.take 9).map Char.toLower = "urn:uuid:".data) &&
      uuidCanonicalOk (cs.drop 9)
  else if cs.length = 38 then uuidCanonicalOk (cs.drop 1)
  else if cs.length = 32 then
    ((List.range 16).all fun i => hexPairOk cs (2 * i))
  else false

/-- The expiry check `isRequestExpired` (main.go:36-42).  It re-parses the
`APPROVAL_TIMEOUT` string on every call and panics when the parse fails;
`cfg` is the parse result (`none` = failure, modelled as an error), and on
success the request is expired iff its age strictly exceeds the timeout. -/
def isRequestExpired (cfg : Option Nat) (now : Nat) (req : Request) :
    Except String Bool :=
  match cfg with
  | none => Except.error "time: invalid duration"
  | some timeout => Except.ok (decide (now - req.createdAt > timeout))

/-- Outcome of `handleAdminApproveRequest`, one constructor per HTTP
response: 400 bad id, 404 not found, 410 expired, 200 approved. -/
inductive ApproveResult where
  | badID
  | notFound
  | expired
  | approved
deriving DecidableEq, Repr

/-- Outcome of `handleAdminDenyRequest`. -/
inductive DenyResult where
  | badID
  | notFound
  | expired
  | denied
deriving DecidableEq, Repr

/-- Outcome of `handleServerGetKey`: `secret k` is the 200 response carrying
the key, `notApproved` the 403 response. -/
inductive RetrieveResult where
  | badID
  | notFound
  | expired
  | notApproved
  | secret (k : String)
deriving DecidableEq, Repr

/-- The approve operation, from `handleAdminApproveRequest` (main.go:96-119):
validate the id (400 before any lookup), then under the lock look the id up;
absent gives 404; an expired entry is deleted with 410; otherwise
`req.Approved = true` and 200. -/
def approve (cfg : Option Nat) (now : Nat) (s : Registry) (id : String) :
    Except String (ApproveResult × Registry) :=
  if uuidParseOk id = false then Except.ok (ApproveResult.badID, s)
  else
    match lookupReq s id with
    | some req =>
      match isRequestExpired cfg now req with
      | Except.error e => Except.error e
      | Except.ok true => Except.ok (ApproveResult.expired, eraseReq s id)
      | Except.ok false => Except.ok (ApproveResult.approved, setApproved s id)
    | none => Except.ok (ApproveResult.notFound, s)

/-- The deny operation, from `handleAdminDenyRequest` (main.go:121-144): same
validation and expiry check as approve, then the entry is deleted
unconditionally. -/
def deny (cfg : Option Nat) (now : Nat) (s : Registry) (id : String) :
    Except String (DenyResult × Registry) :=
  if uuidParseOk id = false then Except.ok (DenyResult.badID, s)
  else
    match lookupReq s id with
    | some req =>
      match isRequestExpired cfg now req with
      | Except.error e => Except.error e
      | Except.ok true => Except.ok (DenyResult.expired, eraseReq s id)
      | Except.ok false => Except.ok (DenyResult.denied, eraseReq s id)
    | none => Except.ok (DenyResult.notFound, s)

/-- The constant key string returned by `handleServerGetKey` (main.go:199). -/
def decryptionKey : String := "your-decryption-key"

/-- The retrieve operation, from `handleServerGetKey` (main.go:174-206)
(after its JSON body binding, which is transport plumbing): validate the id,
look it up, delete-and-410 if expired, return the fixed key if approved,
403 otherwise. -/
def retrieve (cfg : Option Nat) (now : Nat) (s : Registry) (id : String) :
    Except String (RetrieveResult × Registry) :=
  if uuidParseOk id = false then Except.ok (RetrieveResult.badID, s)
  else
    match lookupReq s id with
    | some req =>
      match isRequestExpired cfg now req with
      | Except.error e => Except.error e
      | Except.ok true => Except.ok (RetrieveResult.expired, eraseReq s id)
      | Except.ok false =>
        if req.approved then Except.ok (RetrieveResult.secret decryptionKey, s)
        else Except.ok (RetrieveResult.notApproved, s)
    | none => Except.ok (RetrieveResult.notFound, s)

/-- The create operation, from `handleServerRequestKey` (main.go:146-172):
insert a Pending entry under the freshly generated id (the id, produced by
`uuid.New().String()`, is a parameter here) recording the caller label, the
source address and `CreatedAt = now`. -/
def createRequest (now : Nat) (s : Registry) (id serverID ip : String) :
    Registry :=
  (id, { serverID := serverID, approved := false, createdAt := now, ip := ip }) :: s

/-- The sweep, from `cleanupExpiredRequests` (main.go:44-54): under the lock,
check every live entry with `isRequestExpired` and delete the expired ones.
A failing timeout parse panics out of the scan. -/
def cleanupExpiredRequests (cfg : Option Nat) (now : Nat) :
    Registry → Except String Registry
  | [] => Except.ok []
  | (id, req) :: rest =>
    match isRequestExpired cfg now req with
    | Except.error e => Except.error e
    | Except.ok ex =>
      match cleanupExpiredRequests cfg now rest with
      | Except.error e => Except.error e
      | Except.ok rest2 => Except.ok (if ex then rest2 else (id, req) :: rest2)

/-! ## The authorization gate

`requireAdminSecretKey` and `requireServerSecretKey` (main.go:57-94) are the
same check with different expected secrets: reject an empty Authorization
header, then compare the header against `"Bearer " + secret` with
`crypto/subtle.ConstantTimeCompare`.

To reason about timing we pair every comparison with an explicit cost: the
number of byte-comparison loop iterations it performs.  `ConstantTimeCompare`
(modelled from the Go standard library, a dependency outside this
repository's sources) returns 0 immediately when the lengths differ —
zero loop iterations — and otherwise always runs the full xor-accumulate
loop over all bytes, whatever their contents. -/

/-- The xor-accumulate loop of `subtle.ConstantTimeCompare`: the `v` value
after or-ing the xor of every byte pair.  Bytes are `Char.toNat` codes. -/
def ctcAccum (x y : List Char) : Nat :=
  (x.zip y).foldl (fun a p => a ||| (p.1.toNat ^^^ p.2.toNat)) 0

/-- Modelled from Go `crypto/subtle.ConstantTimeCompare` with an explicit
cost: the result (1 for equal, 0 otherwise) paired with the number of
byte-comparison iterations performed.  On a length mismatch the function
returns before its loop, so the cost is 0; on matching lengths the loop
always runs to the end, so the cost is the full length. -/
def constantTimeCompare (x y : List Char) : Nat × Nat :=
  if x.length ≠ y.length then (0, 0)
  else ((if ctcAccum x y = 0 then 1 else 0), x.length)

/-- The gate check shared by `requireAdminSecretKey` and
`requireServerSecretKey` (main.go:57-94), with the expected secret as a
parameter: reject an empty header without comparing (cost 0), otherwise
accept iff the constant-time comparison of the header against
`"Bearer " + secret` returns 1, at that comparison's cost. -/
def requireSecretKey (secret : String) (authHeader : String) : Bool × Nat :=
  if authHeader = "" then (false, 0)
  else
    let c := constantTimeCompare authHeader.data ("Bearer " ++ secret).data
    (decide (c.1 = 1), c.2)

/-- The admin gate (main.go:57-75), parameterized by `ADMIN_SECRET_KEY`. -/
def requireAdminSecretKey (adminSecretKey : String) (authHeader : String) :
    Bool × Nat :=
  requireSecretKey adminSecretKey authHeader

/-- The server gate (main.go:78-94), parameterized by `SERVER_SECRET_KEY`. -/
def requireServerSecretKey (serverSecretKey : String) (authHeader : String) :
    Bool × Nat :=
  requireSecretKey serverSecretKey authHeader

/-! ## Operation traces

A small-step model of the server's lifetime: each step is one handler call
(or one sweep) at some time instant, with the outcome discarded and only the
registry threaded through.  With a parseable timeout none of the operations
can error; should one error anyway the registry is kept unchanged, matching
`gin.Recovery` aborting the request after no mutation. -/

/-- One server operation: the four handlers plus the sweeper. -/
inductive Op where
  | create (id serverID ip : String)
  | approveOp (id : String)
  | denyOp (id : String)
  | getKey (id : String)
  | sweep
deriving DecidableEq, Repr

/-- Whether an operation is a create of the given id. -/
def Op.isCreateOf : Op → String → Bool
  | Op.create i _ _, id => decide (i = id)
  | _, _ => false

/-- Execute one operation at time `p.1` on the registry. -/
def step (cfg : Option Nat) (p : Nat × Op) (s : Registry) : Registry :=
  match p.2 with
  | Op.create id serverID ip => createRequest p.1 s id serverID ip
  | Op.approveOp id => ((approve cfg p.1 s id).toOption.map Prod.snd).getD s
  | Op.denyOp id => ((deny cfg p.1 s id).toOption.map Prod.snd).getD s
  | Op.getKey id => ((retrieve cfg p.1 s id).toOption.map Prod.snd).getD s
  | Op.sweep => (cleanupExpiredRequests cfg p.1 s).toOption.getD s

/-- Execute a list of timed operations left to right. -/
def runOps (cfg : Option Nat) : List (Nat × Op) → Registry → Registry
  | [], s => s
  | p :: rest, s => runOps cfg rest (step cfg p s)

/-- Number of bindings of `id` in the registry (0 or 1 in reachable
states). -/
def keyCount (s : Registry) (id : String) : Nat :=
  s.countP fun p => decide (p.1 = id)

example :
    approve (some 5) 3 [] "aaaaaaaa-aaaa-aaaa-aaaa-aaaaaaaaaaaa" =
      Except.ok (ApproveResult.notFound, []) := rfl

example : uuidParseOk "not-a-uuid" = false := by decide

example : uuidParseOk "urn:uuid:AAAAAAAA-aaaa-aaaa-aaaa-aaaaaaaaaaaa" = true := by
  decide

example : requireSecretKey "k" "Bearer k" = (true, 8) := by decide

example : requireSecretKey "k" "Bearer q" = (false, 8) := by decide

example : requireSecretKey "k" "x" = (false, 0) := by decide

/-! ## Registry lemmas -/

theorem lookupReq_eq_none_iff (s : Registry) (i : String) :
    lookupReq s i = none ↔ ∀ p ∈ s, p.1 ≠ i := by
  induction s with
  | nil => simp [lookupReq]
  | cons p rest ih =>
    obtain ⟨k, r⟩ := p
    by_cases hk : k = i
    · simp [lookupReq, hk]
    · simp [lookupReq, hk, ih]

theorem lookupReq_mem {s : Registry} {i : String} {r : Request}
    (h : lookupReq s i = some r) : (i, r) ∈ s := by
  induction s with
  | nil => simp [lookupReq] at h
  | cons p rest ih =>
    obtain ⟨k, v⟩ := p
    by_cases hk : k = i
    · subst hk
      simp [lookupReq] at h
      simp [h]
    · simp [lookupReq, hk] at h
      exact List.mem_cons_of_mem _ (ih h)

theorem lookupReq_eraseReq_self (s : Registry) (i : String) :
    lookupReq (eraseReq s i) i = none := by
  rw [lookupReq_eq_none_iff]
  intro p hp
  have h2 := (List.mem_filter.mp hp).2
  simpa using h2

theorem lookupReq_filter_none {s : Registry} {i : String}
    (q : String × Request → Bool) (h : lookupReq s i = none) :
    lookupReq (s.filter q) i = none := by
  rw [lookupReq_eq_none_iff] at h ⊢
  intro p hp
  exact h p (List.mem_filter.mp hp).1

theorem lookupReq_filter_keeps {s : Registry} {i : String}
    {q : String × Request → Bool}
    (h : ∀ p ∈ s, p.1 = i → q p = true) :
    lookupReq (s.filter q) i = lookupReq s i := by
  induction s with
  | nil => simp
  | cons p rest ih =>
    obtain ⟨k, r⟩ := p
    have hrest : ∀ p ∈ rest, p.1 = i → q p = true := by
      intro p hp
      exact h p (List.mem_cons_of_mem _ hp)
    rw [List.filter_cons]
    by_cases hk : k = i
    · have hq : q (k, r) = true := h (k, r) (List.mem_cons_self _ _) hk
      rw [if_pos hq]
      simp [lookupReq, hk]
    · by_cases hq : q (k, r) = true
      · rw [if_pos hq]
        simp [lookupReq, hk, ih hrest]
      · rw [if_neg hq]
        simp [lookupReq, hk, ih hrest]

theorem lookupReq_eraseReq_ne {s : Registry} {a b : String} (h : a ≠ b) :
    lookupReq (eraseReq s a) b = lookupReq s b := by
  unfold eraseReq
  apply lookupReq_filter_keeps
  intro p _ hp
  simp [hp]
  exact fun hh => h hh.symm

theorem lookupReq_setApproved_self (s : Registry) (i : String) :
    lookupReq (setApproved s i) i =
      (lookupReq s i).map fun r => { r with approved := true } := by
  induction s with
  | nil => simp [setApproved, lookupReq]
  | cons p rest ih =>
    obtain ⟨k, r⟩ := p
    by_cases hk : k = i
    · subst hk
      simp [setApproved, lookupReq]
    · simp [setApproved, lookupReq, hk, ih]

theorem lookupReq_setApproved_ne {s : Registry} {a b : String} (h : a ≠ b) :
    lookupReq (setApproved s a) b = lookupReq s b := by
  induction s with
  | nil => simp [setApproved, lookupReq]
  | cons p rest ih =>
    obtain ⟨k, r⟩ := p
    by_cases hk : k = a
    · have hkb : ¬k = b := by
        rw [hk]
        exact h
      simp [setApproved, lookupReq, hk, hkb, h, ih]
    · by_cases hkb : k = b
      · have hba : ¬b = a := fun hh => h hh.symm
        simp [setApproved, lookupReq, hk, hkb, hba]
      · simp [setApproved, lookupReq, hk, hkb, ih]

theorem lookupReq_createRequest_ne {a b : String}
    (h : a ≠ b) (now : Nat) (s : Registry) (serverID ip : String) :
    lookupReq (createRequest now s a serverID ip) b = lookupReq s b := by
  simp [createRequest, lookupReq, h]

theorem keyCount_eq_zero_iff (s : Registry) (i : String) :
    keyCount s i = 0 ↔ lookupReq s i = none := by
  rw [lookupReq_eq_none_iff]
  unfold keyCount
  rw [List.countP_eq_zero]
  constructor
  · intro h p hp
    have h2 := h p hp
    simpa using h2
  · intro h p hp
    simpa using h p hp

theorem keyCount_filter_le (s : Registry) (i : String)
    (q : String × Request → Bool) :
    keyCount (s.filter q) i ≤ keyCount s i := by
  unfold keyCount
  rw [List.countP_filter]
  apply List.countP_mono_left
  intro p _ hp
  rw [Bool.and_eq_true] at hp
  exact hp.1

theorem keyCount_setApproved (s : Registry) (a i : String) :
    keyCount (setApproved s a) i = keyCount s i := by
  induction s with
  | nil => rfl
  | cons p rest ih =>
    obtain ⟨k, r⟩ := p
    unfold keyCount at ih ⊢
    by_cases hk : k = a
    · simp [setApproved, hk, List.countP_cons, ih]
    · simp [setApproved, hk, List.countP_cons, ih]

theorem keyCount_createRequest_ne {a b : String} (h : a ≠ b)
    (now : Nat) (s : Registry) (serverID ip : String) :
    keyCount (createRequest now s a serverID ip) b = keyCount s b := by
  simp [createRequest, keyCount, List.countP_cons, h]

theorem lookupReq_filter_of_le_one {s : Registry} {i : String}
    (q : String × Request → Bool) (h : keyCount s i ≤ 1) :
    lookupReq (s.filter q) i = lookupReq s i ∨
      lookupReq (s.filter q) i = none := by
  induction s with
  | nil => simp
  | cons p rest ih =>
    obtain ⟨k, r⟩ := p
    by_cases hk : k = i
    · subst hk
      have hcount : keyCount ((k, r) :: rest) k = keyCount rest k + 1 := by
        simp [keyCount, List.countP_cons]
      rw [hcount] at h
      have h0 : keyCount rest k = 0 := by omega
      have hrnone : lookupReq rest k = none :=
        (keyCount_eq_zero_iff rest k).mp h0
      rw [List.filter_cons]
      by_cases hq : q (k, r) = true
      · left
        rw [if_pos hq]
        simp [lookupReq]
      · right
        rw [if_neg hq]
        exact lookupReq_filter_none q hrnone
    · have hle : keyCount rest i ≤ 1 := by
        simp [keyCount, List.countP_cons, hk] at h
        simpa [keyCount] using h
      rw [List.filter_cons]
      by_cases hq : q (k, r) = true
      · rcases ih hle with h1 | h1
        · left
          rw [if_pos hq]
          simp [lookupReq, hk, h1]
        · right
          rw [if_pos hq]
          simp [lookupReq, hk, h1]
      · rcases ih hle with h1 | h1
        · rw [if_neg hq, h1]
          left
          simp [lookupReq, hk]
        · right
          rw [if_neg hq]
          exact h1

theorem cleanupExpiredRequests_ok (t now : Nat) (s : Registry) :
    cleanupExpiredRequests (some t) now s =
      Except.ok (s.filter fun p => !(decide (now - p.2.createdAt > t))) := by
  induction s with
  | nil => simp [cleanupExpiredRequests]
  | cons p rest ih =>
    obtain ⟨k, r⟩ := p
    rw [List.filter_cons]
    by_cases hex : now - r.createdAt > t
    · simp [cleanupExpiredRequests, isRequestExpired, ih, hex]
    · simp [cleanupExpiredRequests, isRequestExpired, ih, hex]

/-! ## Step and trace lemmas

Each handler leaves the registry equal to one of: the old registry, the
registry with the id erased, or (approve only) the registry with the id's
entry marked approved; the sweep leaves the filtered registry.  From these,
lookups of untouched ids, absence, and approval are preserved along whole
operation traces. -/

theorem approve_registry_cases (t now : Nat) (s : Registry) (i : String) :
    step (some t) (now, Op.approveOp i) s = s ∨
    step (some t) (now, Op.approveOp i) s = eraseReq s i ∨
    step (some t) (now, Op.approveOp i) s = setApproved s i := by
  by_cases hv : uuidParseOk i = false
  · left
    simp [step, Except.toOption, Option.getD, approve, hv]
  · cases hl : lookupReq s i with
    | none =>
      left
      simp [step, Except.toOption, Option.getD, approve, hv, hl]
    | some req =>
      by_cases hex : now - req.createdAt > t
      · right; left
        simp [step, Except.toOption, Option.getD, approve, isRequestExpired, hv, hl, hex]
      · right; right
        simp [step, Except.toOption, Option.getD, approve, isRequestExpired, hv, hl, hex]

theorem deny_registry_cases (t now : Nat) (s : Registry) (i : String) :
    step (some t) (now, Op.denyOp i) s = s ∨
    step (some t) (now, Op.denyOp i) s = eraseReq s i := by
  by_cases hv : uuidParseOk i = false
  · left
    simp [step, Except.toOption, Option.getD, deny, hv]
  · cases hl : lookupReq s i with
    | none =>
      left
      simp [step, Except.toOption, Option.getD, deny, hv, hl]
    | some req =>
      by_cases hex : now - req.createdAt > t
      · right
        simp [step, Except.toOption, Option.getD, deny, isRequestExpired, hv, hl, hex]
      · right
        simp [step, Except.toOption, Option.getD, deny, isRequestExpired, hv, hl, hex]

theorem retrieve_registry_cases (t now : Nat) (s : Registry) (i : String) :
    step (some t) (now, Op.getKey i) s = s ∨
    step (some t) (now, Op.getKey i) s = eraseReq s i := by
  by_cases hv : uuidParseOk i = false
  · left
    simp [step, Except.toOption, Option.getD, retrieve, hv]
  · cases hl : lookupReq s i with
    | none =>
      left
      simp [step, Except.toOption, Option.getD, retrieve, hv, hl]
    | some req =>
      by_cases hex : now - req.createdAt > t
      · right
        simp [step, Except.toOption, Option.getD, retrieve, isRequestExpired, hv, hl, hex]
      · by_cases hap : req.approved
        · left
          simp [step, Except.toOption, Option.getD, retrieve, isRequestExpired, hv, hl, hex, hap]
        · left
          simp [step, Except.toOption, Option.getD, retrieve, isRequestExpired, hv, hl, hex, hap]

theorem sweep_registry_eq (t now : Nat) (s : Registry) :
    step (some t) (now, Op.sweep) s =
      s.filter fun p => !(decide (now - p.2.createdAt > t)) := by
  simp [step, Except.toOption, Option.getD, cleanupExpiredRequests_ok]

theorem step_keyCount_le {t : Nat} {p : Nat × Op} {s : Registry} {i : String}
    (hc : p.2.isCreateOf i = false) :
    keyCount (step (some t) p s) i ≤ keyCount s i := by
  obtain ⟨now, op⟩ := p
  cases op with
  | create j serverID ip =>
    have hne : j ≠ i := by simpa [Op.isCreateOf] using hc
    rw [show step (some t) (now, Op.create j serverID ip) s =
          createRequest now s j serverID ip from rfl]
    rw [keyCount_createRequest_ne hne]
  | approveOp j =>
    rcases approve_registry_cases t now s j with h | h | h
    · rw [h]
    · rw [h]
      exact keyCount_filter_le s i _
    · rw [h, keyCount_setApproved]
  | denyOp j =>
    rcases deny_registry_cases t now s j with h | h
    · rw [h]
    · rw [h]
      exact keyCount_filter_le s i _
  | getKey j =>
    rcases retrieve_registry_cases t now s j with h | h
    · rw [h]
    · rw [h]
      exact keyCount_filter_le s i _
  | sweep =>
    rw [sweep_registry_eq]
    exact keyCount_filter_le s i _

theorem step_lookupReq_none {t : Nat} {p : Nat × Op} {s : Registry}
    {i : String} (hc : p.2.isCreateOf i = false)
    (h : lookupReq s i = none) :
    lookupReq (step (some t) p s) i = none := by
  rw [← keyCount_eq_zero_iff] at h ⊢
  have hle := step_keyCount_le (t := t) (p := p) (s := s) hc
  omega

theorem step_approved_mono {t : Nat} {p : Nat × Op} {s : Registry}
    {i : String} {req : Request} (hc : p.2.isCreateOf i = false)
    (h1 : keyCount s i ≤ 1) (h2 : lookupReq s i = some req)
    (ha : req.approved = true) :
    lookupReq (step (some t) p s) i = none ∨
      ∃ r2, lookupReq (step (some t) p s) i = some r2 ∧
        r2.approved = true := by
  obtain ⟨now, op⟩ := p
  cases op with
  | create j serverID ip =>
    have hne : j ≠ i := by simpa [Op.isCreateOf] using hc
    right
    exact ⟨req, by
      rw [show step (some t) (now, Op.create j serverID ip) s =
            createRequest now s j serverID ip from rfl]
      rw [lookupReq_createRequest_ne hne]
      exact h2, ha⟩
  | approveOp j =>
    rcases approve_registry_cases t now s j with h | h | h
    · right
      exact ⟨req, by rw [h]; exact h2, ha⟩
    · by_cases hj : j = i
      · left
        rw [h, hj]
        exact lookupReq_eraseReq_self s i
      · right
        exact ⟨req, by rw [h, lookupReq_eraseReq_ne hj]; exact h2, ha⟩
    · by_cases hj : j = i
      · right
        refine ⟨{ req with approved := true }, ?_, rfl⟩
        rw [h, hj, lookupReq_setApproved_self, h2]
        rfl
      · right
        exact ⟨req, by rw [h, lookupReq_setApproved_ne hj]; exact h2, ha⟩
  | denyOp j =>
    rcases deny_registry_cases t now s j with h | h
    · right
      exact ⟨req, by rw [h]; exact h2, ha⟩
    · by_cases hj : j = i
      · left
        rw [h, hj]
        exact lookupReq_eraseReq_self s i
      · right
        exact ⟨req, by rw [h, lookupReq_eraseReq_ne hj]; exact h2, ha⟩
  | getKey j =>
    rcases retrieve_registry_cases t now s j with h | h
    · right
      exact ⟨req, by rw [h]; exact h2, ha⟩
    · by_cases hj : j = i
      · left
        rw [h, hj]
        exact lookupReq_eraseReq_self s i
      · right
        exact ⟨req, by rw [h, lookupReq_eraseReq_ne hj]; exact h2, ha⟩
  | sweep =>
    rw [sweep_registry_eq]
    rcases lookupReq_filter_of_le_one
        (fun p => !(decide (now - p.2.createdAt > t))) h1 with h | h
    · right
      exact ⟨req, by rw [h]; exact h2, ha⟩
    · left
      exact h

theorem runOps_lookupReq_none {t : Nat} {i : String} :
    ∀ (ops : List (Nat × Op)) (s : Registry),
      (∀ p ∈ ops, p.2.isCreateOf i = false) →
      lookupReq s i = none →
      lookupReq (runOps (some t) ops s) i = none := by
  intro ops
  induction ops with
  | nil =>
    intro s _ h
    exact h
  | cons p rest ih =>
    intro s hall h
    have hc : p.2.isCreateOf i = false := hall p (List.mem_cons_self _ _)
    have hrest : ∀ q ∈ rest, q.2.isCreateOf i = false := fun q hq =>
      hall q (List.mem_cons_of_mem _ hq)
    exact ih _ hrest (step_lookupReq_none hc h)

theorem runOps_keyCount_le {t : Nat} {i : String} :
    ∀ (ops : List (Nat × Op)) (s : Registry),
      (∀ p ∈ ops, p.2.isCreateOf i = false) →
      keyCount (runOps (some t) ops s) i ≤ keyCount s i := by
  intro ops
  induction ops with
  | nil =>
    intro s _
    exact Nat.le_refl _
  | cons p rest ih =>
    intro s hall
    have hc : p.2.isCreateOf i = false := hall p (List.mem_cons_self _ _)
    have hrest : ∀ q ∈ rest, q.2.isCreateOf i = false := fun q hq =>
      hall q (List.mem_cons_of_mem _ hq)
    exact Nat.le_trans (ih _ hrest) (step_keyCount_le hc)

theorem runOps_approved_mono {t : Nat} {i : String} :
    ∀ (ops : List (Nat × Op)) (s : Registry),
      (∀ p ∈ ops, p.2.isCreateOf i = false) →
      keyCount s i ≤ 1 →
      (lookupReq s i = none ∨
        ∃ r, lookupReq s i = some r ∧ r.approved = true) →
      lookupReq (runOps (some t) ops s) i = none ∨
        ∃ r, lookupReq (runOps (some t) ops s) i = some r ∧
          r.approved = true := by
  intro ops
  induction ops with
  | nil =>
    intro s _ _ h
    exact h
  | cons p rest ih =>
    intro s hall hcnt h
    have hc : p.2.isCreateOf i = false := hall p (List.mem_cons_self _ _)
    have hrest : ∀ q ∈ rest, q.2.isCreateOf i = false := fun q hq =>
      hall q (List.mem_cons_of_mem _ hq)
    have hcnt2 : keyCount (step (some t) p s) i ≤ 1 :=
      Nat.le_trans (step_keyCount_le hc) hcnt
    rcases h with h | ⟨r, hr, hra⟩
    · exact ih _ hrest hcnt2 (Or.inl (step_lookupReq_none hc h))
    · exact ih _ hrest hcnt2 (step_approved_mono hc hcnt hr hra)

/-! ## Shared handler facts -/

theorem approve_notFound {t now : Nat} {s : Registry} {i : String}
    (hv : uuidParseOk i = true) (hl : lookupReq s i = none) :
    approve (some t) now s i = Except.ok (ApproveResult.notFound, s) := by
  simp [Except.isOk, Except.toBool, approve, hv, hl]

theorem deny_notFound {t now : Nat} {s : Registry} {i : String}
    (hv : uuidParseOk i = true) (hl : lookupReq s i = none) :
    deny (some t) now s i = Except.ok (DenyResult.notFound, s) := by
  simp [Except.isOk, Except.toBool, deny, hv, hl]

theorem retrieve_notFound {t now : Nat} {s : Registry} {i : String}
    (hv : uuidParseOk i = true) (hl : lookupReq s i = none) :
    retrieve (some t) now s i = Except.ok (RetrieveResult.notFound, s) := by
  simp [Except.isOk, Except.toBool, retrieve, hv, hl]

theorem countP_split (s : Registry) (q : String × Request → Bool) :
    s.countP q + s.countP (fun p => !(q p)) = s.length := by
  induction s with
  | nil => simp
  | cons p rest ih =>
    by_cases hq : q p = true
    · simp [List.countP_cons, hq]
      omega
    · simp [List.countP_cons, hq, Bool.not_eq_true] at ih ⊢
      omega

/-! ## Claims -/

/-- Claim C1: for every id passed to approve, a syntactically invalid id
yields BadID (for any registry, which is left untouched); a valid id with no
live entry yields NotFound; a valid id whose live entry has age exceeding
the timeout yields Expired and the entry is removed; otherwise the entry's
state is set to Approved — even when it already was — and the result is
Approved. -/
theorem approve_case_analysis (t now : Nat) (s : Registry) (i : String) :
    (uuidParseOk i = false →
      approve (some t) now s i = Except.ok (ApproveResult.badID, s))
    ∧ (uuidParseOk i = true → lookupReq s i = none →
      approve (some t) now s i = Except.ok (ApproveResult.notFound, s))
    ∧ (∀ req, uuidParseOk i = true → lookupReq s i = some req →
      now - req.createdAt > t →
      approve (some t) now s i = Except.ok (ApproveResult.expired, eraseReq s i)
        ∧ lookupReq (eraseReq s i) i = none)
    ∧ (∀ req, uuidParseOk i = true → lookupReq s i = some req →
      ¬(now - req.createdAt > t) →
      approve (some t) now s i =
          Except.ok (ApproveResult.approved, setApproved s i)
        ∧ lookupReq (setApproved s i) i =
            some { req with approved := true }) := by
  refine ⟨?_, ?_, ?_, ?_⟩
  · intro hv
    simp [Except.isOk, Except.toBool, approve, hv]
  · intro hv hl
    exact approve_notFound hv hl
  · intro req hv hl hex
    refine ⟨by simp [Except.isOk, Except.toBool, approve, isRequestExpired, hv, hl, hex], ?_⟩
    exact lookupReq_eraseReq_self s i
  · intro req hv hl hex
    refine ⟨by simp [Except.isOk, Except.toBool, approve, isRequestExpired, hv, hl, hex], ?_⟩
    rw [lookupReq_setApproved_self, hl]
    rfl

/-- Witness for `approve_case_analysis`: each of the four branches
discharged at a concrete input.  The id is a canonical UUID, the registry
holds one entry created at time 0, and the timeout is 5: approving at time
10 finds it expired, approving at time 3 approves it. -/
theorem approve_case_analysis_witness :
    approve (some 5) 0 [] "zz" = Except.ok (ApproveResult.badID, [])
    ∧ approve (some 5) 0 [] "aaaaaaaa-aaaa-aaaa-aaaa-aaaaaaaaaaaa" =
        Except.ok (ApproveResult.notFound, [])
    ∧ approve (some 5) 10
        [("aaaaaaaa-aaaa-aaaa-aaaa-aaaaaaaaaaaa",
          { serverID := "s1", approved := false, createdAt := 0,
            ip := "10.0.0.1" })]
        "aaaaaaaa-aaaa-aaaa-aaaa-aaaaaaaaaaaa" =
        Except.ok (ApproveResult.expired, [])
    ∧ approve (some 5) 3
        [("aaaaaaaa-aaaa-aaaa-aaaa-aaaaaaaaaaaa",
          { serverID := "s1", approved := false, createdAt := 0,
            ip := "10.0.0.1" })]
        "aaaaaaaa-aaaa-aaaa-aaaa-aaaaaaaaaaaa" =
        Except.ok (ApproveResult.approved,
          [("aaaaaaaa-aaaa-aaaa-aaaa-aaaaaaaaaaaa",
            { serverID := "s1", approved := true, createdAt := 0,
              ip := "10.0.0.1" })]) := by
  refine ⟨(approve_case_analysis 5 0 [] "zz").1 (by decide),
    (approve_case_analysis 5 0 [] "aaaaaaaa-aaaa-aaaa-aaaa-aaaaaaaaaaaa").2.1
      (by decide) rfl, ?_, ?_⟩
  · exact ((approve_case_analysis 5 10
      [("aaaaaaaa-aaaa-aaaa-aaaa-aaaaaaaaaaaa",
        { serverID := "s1", approved := false, createdAt := 0,
          ip := "10.0.0.1" })]
      "aaaaaaaa-aaaa-aaaa-aaaa-aaaaaaaaaaaa").2.2.1
      { serverID := "s1", approved := false, createdAt := 0,
        ip := "10.0.0.1" } (by decide) rfl (by decide)).1
  · exact ((approve_case_analysis 5 3
      [("aaaaaaaa-aaaa-aaaa-aaaa-aaaaaaaaaaaa",
        { serverID := "s1", approved := false, createdAt := 0,
          ip := "10.0.0.1" })]
      "aaaaaaaa-aaaa-aaaa-aaaa-aaaaaaaaaaaa").2.2.2
      { serverID := "s1", approved := false, createdAt := 0,
        ip := "10.0.0.1" } (by decide) rfl (by decide)).1

/-- One round of polling: perform `n` retrieve calls for `i` in sequence,
threading the registry through (an erroring call leaves it unchanged). -/
def retrievePoll (t now : Nat) (i : String) : Nat → Registry → Registry
  | 0, s => s
  | Nat.succ n, s =>
    match retrieve (some t) now s i with
    | Except.ok (_, s2) => retrievePoll t now i n s2
    | Except.error _ => s

/-- Claim C2: for an id whose entry is Approved and unexpired, retrieve
returns the secret and leaves the registry exactly as it was, so after any
number of repeated retrieve calls the registry is unchanged and every one
of them keeps returning the secret — retrieve never consumes the entry on
success. -/
theorem retrieve_nonconsuming (t now : Nat) (s : Registry) (i : String)
    (req : Request) (hv : uuidParseOk i = true)
    (hl : lookupReq s i = some req) (ha : req.approved = true)
    (hex : ¬(now - req.createdAt > t)) :
    retrieve (some t) now s i =
      Except.ok (RetrieveResult.secret decryptionKey, s)
    ∧ (∀ n, retrievePoll t now i n s = s)
    ∧ ∀ n, retrieve (some t) now (retrievePoll t now i n s) i =
        Except.ok (RetrieveResult.secret decryptionKey, s) := by
  have h1 : retrieve (some t) now s i =
      Except.ok (RetrieveResult.secret decryptionKey, s) := by
    simp [Except.isOk, Except.toBool, retrieve, isRequestExpired, hv, hl, hex, ha]
  have hpoll : ∀ n, retrievePoll t now i n s = s := by
    intro n
    induction n with
    | zero => rfl
    | succ n ih =>
      rw [retrievePoll, h1]
      exact ih
  exact ⟨h1, hpoll, fun n => by rw [hpoll n]; exact h1⟩

/-- Witness for `retrieve_nonconsuming`: an approved entry created at time 0
retrieved at time 3 with timeout 5, polled three times. -/
theorem retrieve_nonconsuming_witness :
    retrieve (some 5) 3
      [("aaaaaaaa-aaaa-aaaa-aaaa-aaaaaaaaaaaa",
        { serverID := "s1", approved := true, createdAt := 0,
          ip := "10.0.0.1" })]
      "aaaaaaaa-aaaa-aaaa-aaaa-aaaaaaaaaaaa" =
      Except.ok (RetrieveResult.secret decryptionKey,
        [("aaaaaaaa-aaaa-aaaa-aaaa-aaaaaaaaaaaa",
          { serverID := "s1", approved := true, createdAt := 0,
            ip := "10.0.0.1" })])
    ∧ retrievePoll 5 3 "aaaaaaaa-aaaa-aaaa-aaaa-aaaaaaaaaaaa" 3
        [("aaaaaaaa-aaaa-aaaa-aaaa-aaaaaaaaaaaa",
          { serverID := "s1", approved := true, createdAt := 0,
            ip := "10.0.0.1" })] =
        [("aaaaaaaa-aaaa-aaaa-aaaa-aaaaaaaaaaaa",
          { serverID := "s1", approved := true, createdAt := 0,
            ip := "10.0.0.1" })] := by
  have h := retrieve_nonconsuming 5 3
    [("aaaaaaaa-aaaa-aaaa-aaaa-aaaaaaaaaaaa",
      { serverID := "s1", approved := true, createdAt := 0,
        ip := "10.0.0.1" })]
    "aaaaaaaa-aaaa-aaaa-aaaa-aaaaaaaaaaaa"
    { serverID := "s1", approved := true, createdAt := 0, ip := "10.0.0.1" }
    (by decide) rfl rfl (by decide)
  exact ⟨h.1, h.2.1 3⟩

/-- Claim C3: deny on a live, unexpired entry removes it unconditionally —
whether Pending or Approved — and returns Denied; deny is not idempotent: a
second deny on the same id returns NotFound, and after a successful deny
both approve and retrieve on that id return NotFound. -/
theorem deny_terminal (t now now2 : Nat) (s : Registry) (i : String)
    (req : Request) (hv : uuidParseOk i = true)
    (hl : lookupReq s i = some req) (hex : ¬(now - req.createdAt > t)) :
    deny (some t) now s i = Except.ok (DenyResult.denied, eraseReq s i)
    ∧ lookupReq (eraseReq s i) i = none
    ∧ deny (some t) now2 (eraseReq s i) i =
        Except.ok (DenyResult.notFound, eraseReq s i)
    ∧ approve (some t) now2 (eraseReq s i) i =
        Except.ok (ApproveResult.notFound, eraseReq s i)
    ∧ retrieve (some t) now2 (eraseReq s i) i =
        Except.ok (RetrieveResult.notFound, eraseReq s i) := by
  have hgone : lookupReq (eraseReq s i) i = none := lookupReq_eraseReq_self s i
  refine ⟨by simp [Except.isOk, Except.toBool, deny, isRequestExpired, hv, hl, hex], hgone,
    deny_notFound hv hgone, approve_notFound hv hgone,
    retrieve_notFound hv hgone⟩

/-- Witness for `deny_terminal`: denying an Approved entry at time 3 with
timeout 5 (deny removes even Approved entries). -/
theorem deny_terminal_witness :
    deny (some 5) 3
      [("aaaaaaaa-aaaa-aaaa-aaaa-aaaaaaaaaaaa",
        { serverID := "s1", approved := true, createdAt := 0,
          ip := "10.0.0.1" })]
      "aaaaaaaa-aaaa-aaaa-aaaa-aaaaaaaaaaaa" =
      Except.ok (DenyResult.denied, [])
    ∧ approve (some 5) 4 [] "aaaaaaaa-aaaa-aaaa-aaaa-aaaaaaaaaaaa" =
        Except.ok (ApproveResult.notFound, [])
    ∧ retrieve (some 5) 4 [] "aaaaaaaa-aaaa-aaaa-aaaa-aaaaaaaaaaaa" =
        Except.ok (RetrieveResult.notFound, []) := by
  have h := deny_terminal 5 3 4
    [("aaaaaaaa-aaaa-aaaa-aaaa-aaaaaaaaaaaa",
      { serverID := "s1", approved := true, createdAt := 0,
        ip := "10.0.0.1" })]
    "aaaaaaaa-aaaa-aaaa-aaaa-aaaaaaaaaaaa"
    { serverID := "s1", approved := true, createdAt := 0, ip := "10.0.0.1" }
    (by decide) rfl (by decide)
  exact ⟨h.1, h.2.2.2.1, h.2.2.2.2⟩

/-- Claim C4: an entry is expired exactly when `now - createdAt > timeout`,
independently of its state; whenever approve, deny, or retrieve observes an
expired entry, that call returns Expired and removes the entry, and after
any further trace of operations (none recreating the id, which the
unguessable generator guarantees) every approve/deny/retrieve on that id
returns NotFound, whatever the entry's prior state was. -/
theorem expiry_semantics (t now : Nat) (s : Registry) (i : String)
    (req : Request) :
    (∀ b, isRequestExpired (some t) now { req with approved := b } =
      Except.ok (decide (now - req.createdAt > t)))
    ∧ (uuidParseOk i = true → lookupReq s i = some req →
      now - req.createdAt > t →
      approve (some t) now s i =
          Except.ok (ApproveResult.expired, eraseReq s i)
        ∧ deny (some t) now s i =
            Except.ok (DenyResult.expired, eraseReq s i)
        ∧ retrieve (some t) now s i =
            Except.ok (RetrieveResult.expired, eraseReq s i)
        ∧ ∀ (ops : List (Nat × Op)) (now2 : Nat),
            (∀ p ∈ ops, p.2.isCreateOf i = false) →
            approve (some t) now2 (runOps (some t) ops (eraseReq s i)) i =
              Except.ok (ApproveResult.notFound,
                runOps (some t) ops (eraseReq s i))
            ∧ deny (some t) now2 (runOps (some t) ops (eraseReq s i)) i =
              Except.ok (DenyResult.notFound,
                runOps (some t) ops (eraseReq s i))
            ∧ retrieve (some t) now2 (runOps (some t) ops (eraseReq s i)) i =
              Except.ok (RetrieveResult.notFound,
                runOps (some t) ops (eraseReq s i))) := by
  refine ⟨fun b => rfl, fun hv hl hex => ?_⟩
  have hgone : lookupReq (eraseReq s i) i = none := lookupReq_eraseReq_self s i
  refine ⟨by simp [Except.isOk, Except.toBool, approve, isRequestExpired, hv, hl, hex],
    by simp [Except.isOk, Except.toBool, deny, isRequestExpired, hv, hl, hex],
    by simp [Except.isOk, Except.toBool, retrieve, isRequestExpired, hv, hl, hex], ?_⟩
  intro ops now2 hfresh
  have hnone := @runOps_lookupReq_none t i ops (eraseReq s i) hfresh hgone
  exact ⟨approve_notFound hv hnone, deny_notFound hv hnone,
    retrieve_notFound hv hnone⟩

/-- Witness for `expiry_semantics`: an Approved entry created at time 0 with
timeout 5 observed at time 10 is expired; after its removal and one sweep,
approve at time 12 still returns NotFound. -/
theorem expiry_semantics_witness :
    approve (some 5) 10
      [("aaaaaaaa-aaaa-aaaa-aaaa-aaaaaaaaaaaa",
        { serverID := "s1", approved := true, createdAt := 0,
          ip := "10.0.0.1" })]
      "aaaaaaaa-aaaa-aaaa-aaaa-aaaaaaaaaaaa" =
      Except.ok (ApproveResult.expired, [])
    ∧ approve (some 5) 12 (runOps (some 5) [(11, Op.sweep)] []) 
        "aaaaaaaa-aaaa-aaaa-aaaa-aaaaaaaaaaaa" =
        Except.ok (ApproveResult.notFound, runOps (some 5) [(11, Op.sweep)] []) := by
  have h := (expiry_semantics 5 10
    [("aaaaaaaa-aaaa-aaaa-aaaa-aaaaaaaaaaaa",
      { serverID := "s1", approved := true, createdAt := 0,
        ip := "10.0.0.1" })]
    "aaaaaaaa-aaaa-aaaa-aaaa-aaaaaaaaaaaa"
    { serverID := "s1", approved := true, createdAt := 0,
      ip := "10.0.0.1" }).2 (by decide) rfl (by decide)
  exact ⟨h.1, (h.2.2.2 [(11, Op.sweep)] 12 (by decide)).1⟩

/-- Claim C5: a single sweep over a registry with N entries, K of which are
expired, removes exactly the K expired entries — the result is the original
list filtered to its unexpired entries, its length is N minus K, and an
entry pair survives (completely unchanged, states and timestamps included)
iff it was present and unexpired. -/
theorem sweep_removes_exactly_expired (t now : Nat) (s : Registry) :
    cleanupExpiredRequests (some t) now s =
      Except.ok (s.filter fun p => !(decide (now - p.2.createdAt > t)))
    ∧ (s.filter fun p => !(decide (now - p.2.createdAt > t))).length =
        s.length - (s.countP fun p => decide (now - p.2.createdAt > t))
    ∧ ∀ p : String × Request,
        p ∈ s.filter (fun p => !(decide (now - p.2.createdAt > t))) ↔
          p ∈ s ∧ ¬(now - p.2.createdAt > t) := by
  refine ⟨cleanupExpiredRequests_ok t now s, ?_, ?_⟩
  · have h := countP_split s fun p => decide (now - p.2.createdAt > t)
    have h2 : (s.filter fun p => !(decide (now - p.2.createdAt > t))).length =
        s.countP fun p => !(decide (now - p.2.createdAt > t)) :=
      (List.countP_eq_length_filter _ _).symm
    rw [h2]
    omega
  · intro p
    simp [List.mem_filter]

/-- Claim C6: for a syntactically invalid id, approve, deny and retrieve all
return BadID with the registry untouched, for every registry and even for an
unparsed timeout configuration — the id check consults nothing — and BadID
is a distinct outcome from NotFound in each result type. -/
theorem badID_rejected_stateless (cfg : Option Nat) (now : Nat)
    (s : Registry) (i : String) (hv : uuidParseOk i = false) :
    approve cfg now s i = Except.ok (ApproveResult.badID, s)
    ∧ deny cfg now s i = Except.ok (DenyResult.badID, s)
    ∧ retrieve cfg now s i = Except.ok (RetrieveResult.badID, s)
    ∧ ApproveResult.badID ≠ ApproveResult.notFound
    ∧ DenyResult.badID ≠ DenyResult.notFound
    ∧ RetrieveResult.badID ≠ RetrieveResult.notFound := by
  exact ⟨by simp [Except.isOk, Except.toBool, approve, hv], by simp [Except.isOk, Except.toBool, deny, hv], by simp [Except.isOk, Except.toBool, retrieve, hv],
    by decide, by decide, by decide⟩

/-- Witness for `badID_rejected_stateless`: the malformed id `zz` against a
nonempty registry with an unparseable timeout configuration. -/
theorem badID_rejected_stateless_witness :
    approve none 3
      [("aaaaaaaa-aaaa-aaaa-aaaa-aaaaaaaaaaaa",
        { serverID := "s1", approved := false, createdAt := 0,
          ip := "10.0.0.1" })] "zz" =
      Except.ok (ApproveResult.badID,
        [("aaaaaaaa-aaaa-aaaa-aaaa-aaaaaaaaaaaa",
          { serverID := "s1", approved := false, createdAt := 0,
            ip := "10.0.0.1" })])
    ∧ retrieve none 3
        [("aaaaaaaa-aaaa-aaaa-aaaa-aaaaaaaaaaaa",
          { serverID := "s1", approved := false, createdAt := 0,
            ip := "10.0.0.1" })] "zz" =
        Except.ok (RetrieveResult.badID,
          [("aaaaaaaa-aaaa-aaaa-aaaa-aaaaaaaaaaaa",
            { serverID := "s1", approved := false, createdAt := 0,
              ip := "10.0.0.1" })]) := by
  have h := badID_rejected_stateless none 3
    [("aaaaaaaa-aaaa-aaaa-aaaa-aaaaaaaaaaaa",
      { serverID := "s1", approved := false, createdAt := 0,
        ip := "10.0.0.1" })] "zz" (by decide)
  exact ⟨h.1, h.2.2.1⟩

/-- Claim C7: across every operation trace in which the generator never
re-issues the id (no create of it — guaranteed in the real system by
128-bit randomness), an entry with at most one binding only ever progresses
Pending to Approved: once Approved it is later either still Approved or
removed, never Pending again; and once absent the id stays absent forever,
with every subsequent approve, deny, or retrieve on it returning
NotFound. -/
theorem state_monotone_no_resurrection (t : Nat) (ops : List (Nat × Op))
    (s : Registry) (i : String)
    (hfresh : ∀ p ∈ ops, p.2.isCreateOf i = false)
    (huniq : keyCount s i ≤ 1) :
    (∀ req, lookupReq s i = some req → req.approved = true →
      lookupReq (runOps (some t) ops s) i = none ∨
        ∃ r2, lookupReq (runOps (some t) ops s) i = some r2 ∧
          r2.approved = true)
    ∧ (lookupReq s i = none →
      lookupReq (runOps (some t) ops s) i = none
        ∧ ∀ now2, uuidParseOk i = true →
            approve (some t) now2 (runOps (some t) ops s) i =
              Except.ok (ApproveResult.notFound, runOps (some t) ops s)
            ∧ deny (some t) now2 (runOps (some t) ops s) i =
              Except.ok (DenyResult.notFound, runOps (some t) ops s)
            ∧ retrieve (some t) now2 (runOps (some t) ops s) i =
              Except.ok (RetrieveResult.notFound, runOps (some t) ops s)) := by
  constructor
  · intro req hl ha
    exact runOps_approved_mono ops s hfresh huniq (Or.inr ⟨req, hl, ha⟩)
  · intro hl
    have hnone := @runOps_lookupReq_none t i ops s hfresh hl
    exact ⟨hnone, fun now2 hv =>
      ⟨approve_notFound hv hnone, deny_notFound hv hnone,
        retrieve_notFound hv hnone⟩⟩

/-- Witness for `state_monotone_no_resurrection`: after a deny of some other
id and a sweep, an id that was absent stays absent and approve on it at time
7 returns NotFound. -/
theorem state_monotone_no_resurrection_witness :
    lookupReq
      (runOps (some 5) [(6, Op.sweep)] []) "aaaaaaaa-aaaa-aaaa-aaaa-aaaaaaaaaaaa"
      = none
    ∧ approve (some 5) 7 (runOps (some 5) [(6, Op.sweep)] [])
        "aaaaaaaa-aaaa-aaaa-aaaa-aaaaaaaaaaaa" =
        Except.ok (ApproveResult.notFound, runOps (some 5) [(6, Op.sweep)] []) := by
  have h := (state_monotone_no_resurrection 5 [(6, Op.sweep)] []
    "aaaaaaaa-aaaa-aaaa-aaaa-aaaaaaaaaaaa" (by decide) (by decide)).2 rfl
  exact ⟨h.1, (h.2 7 (by decide)).1⟩

/-- Claim C10: retrieve on an approved, unexpired entry returns the one
fixed literal secret string, whatever the request id, requester label,
source address or creation time stored in the entry — every approved request
of every caller releases the identical secret. -/
theorem secret_constant (t now : Nat) (s : Registry) (i : String)
    (req : Request) (hv : uuidParseOk i = true)
    (hl : lookupReq s i = some req) (ha : req.approved = true)
    (hex : ¬(now - req.createdAt > t)) :
    retrieve (some t) now s i =
      Except.ok (RetrieveResult.secret "your-decryption-key", s) := by
  simp [Except.isOk, Except.toBool, retrieve, isRequestExpired, hv, hl, hex, ha, decryptionKey]

/-- Witness for `secret_constant`: two approved entries with different ids,
labels and addresses both release the very same string. -/
theorem secret_constant_witness :
    retrieve (some 5) 3
      [("aaaaaaaa-aaaa-aaaa-aaaa-aaaaaaaaaaaa",
        { serverID := "s1", approved := true, createdAt := 0,
          ip := "10.0.0.1" })]
      "aaaaaaaa-aaaa-aaaa-aaaa-aaaaaaaaaaaa" =
      Except.ok (RetrieveResult.secret "your-decryption-key",
        [("aaaaaaaa-aaaa-aaaa-aaaa-aaaaaaaaaaaa",
          { serverID := "s1", approved := true, createdAt := 0,
            ip := "10.0.0.1" })])
    ∧ retrieve (some 9) 4
        [("bbbbbbbb-bbbb-bbbb-bbbb-bbbbbbbbbbbb",
          { serverID := "other-server", approved := true, createdAt := 2,
            ip := "192.168.1.7" })]
        "bbbbbbbb-bbbb-bbbb-bbbb-bbbbbbbbbbbb" =
        Except.ok (RetrieveResult.secret "your-decryption-key",
          [("bbbbbbbb-bbbb-bbbb-bbbb-bbbbbbbbbbbb",
            { serverID := "other-server", approved := true, createdAt := 2,
              ip := "192.168.1.7" })]) := by
  exact ⟨secret_constant 5 3 _ "aaaaaaaa-aaaa-aaaa-aaaa-aaaaaaaaaaaa"
      { serverID := "s1", approved := true, createdAt := 0, ip := "10.0.0.1" }
      (by decide) rfl rfl (by decide),
    secret_constant 9 4 _ "bbbbbbbb-bbbb-bbbb-bbbb-bbbbbbbbbbbb"
      { serverID := "other-server", approved := true, createdAt := 2,
        ip := "192.168.1.7" }
      (by decide) rfl rfl (by decide)⟩

/-- Cost of the modelled `ConstantTimeCompare`: the number of
byte-comparison iterations depends only on the two lengths — the full
length when they match, zero (immediate return) when they differ. -/
theorem constantTimeCompare_cost (x y : List Char) :
    (constantTimeCompare x y).2 = if x.length = y.length then x.length else 0 := by
  unfold constantTimeCompare
  by_cases hl : x.length = y.length
  · simp [hl]
  · simp [hl]

/-- Cost of one gate check on a nonempty header: a pure function of the
header length and the expected value's length. -/
theorem requireSecretKey_cost (secret h : String) (hne : h ≠ "") :
    (requireSecretKey secret h).2 =
      if h.length = ("Bearer " ++ secret).length then h.length else 0 := by
  unfold requireSecretKey
  rw [if_neg hne]
  show (constantTimeCompare h.data ("Bearer " ++ secret).data).2 = _
  rw [constantTimeCompare_cost]
  rfl

/-- Claim C8 counterexample: with admin secret `k` the expected value
`Bearer k` has 8 bytes.  The rejected 8-byte credential `Bearer q` pays a
full 8-iteration comparison pass, while the rejected 1-byte credential `x`
pays 0 iterations: `subtle.ConstantTimeCompare` returns immediately on a
length mismatch, so the gate's comparison time does depend on whether the
presented value's length matches the expected value's length, contrary to
the claim. -/
theorem gate_time_depends_on_length_match :
    (requireAdminSecretKey "k" "Bearer q").1 = false
    ∧ (requireAdminSecretKey "k" "x").1 = false
    ∧ "Bearer q".length = ("Bearer " ++ "k").length
    ∧ "x".length ≠ ("Bearer " ++ "k").length
    ∧ (requireAdminSecretKey "k" "Bearer q").2 = 8
    ∧ (requireAdminSecretKey "k" "x").2 = 0 := by
  decide

/-- Claim C8 (amended): the gate's comparison cost is a function of the
presented and expected lengths alone, never of their contents — so for a
length-matching credential the full pass always runs and the time is
independent of the position of the first mismatching byte — but on a length
mismatch the comparison returns immediately with zero byte comparisons (an
early return on length mismatch), for both the admin and the server
gate. -/
theorem gate_cost_depends_only_on_lengths (secret h : String)
    (hne : h ≠ "") :
    (requireAdminSecretKey secret h).2 =
      (if h.length = ("Bearer " ++ secret).length then h.length else 0)
    ∧ (requireServerSecretKey secret h).2 =
      (if h.length = ("Bearer " ++ secret).length then h.length else 0) :=
  ⟨requireSecretKey_cost secret h hne, requireSecretKey_cost secret h hne⟩

/-- Witness for `gate_cost_depends_only_on_lengths` at secret `k` and
header `x`. -/
theorem gate_cost_depends_only_on_lengths_witness :
    (requireAdminSecretKey "k" "x").2 =
      (if "x".length = ("Bearer " ++ "k").length then "x".length else 0)
    ∧ (requireServerSecretKey "k" "x").2 =
      (if "x".length = ("Bearer " ++ "k").length then "x".length else 0) :=
  gate_cost_depends_only_on_lengths "k" "x" (by decide)

/-- Claim C9 counterexample: nothing parses `APPROVAL_TIMEOUT` at startup
(`main` only reads environment strings and starts the router); the parse
happens inside `isRequestExpired` during each request.  So with an
unparseable timeout, approving a live entry faults in the middle of request
processing — the claimed startup-time fatal error does not exist and the
per-request fault does. -/
theorem badTimeout_faults_during_request :
    approve none 1
      [("aaaaaaaa-aaaa-aaaa-aaaa-aaaaaaaaaaaa",
        { serverID := "s1", approved := false, createdAt := 0,
          ip := "10.0.0.1" })]
      "aaaaaaaa-aaaa-aaaa-aaaa-aaaaaaaaaaaa" =
      Except.error "time: invalid duration" := rfl

/-- Claim C9 (amended): the timeout parse is lazy, not a startup check:
with a parseable timeout no approve, deny, retrieve or sweep call can fail,
and with an unparseable one the failure surfaces during the processing of
any request whose expiry check runs — approve/deny/retrieve of a live
entry, or a sweep of a nonempty registry. -/
theorem timeout_parse_fault_location (t now : Nat) (s : Registry)
    (i k : String) (r : Request) (s2 : Registry) :
    (approve (some t) now s i).isOk = true
    ∧ (deny (some t) now s i).isOk = true
    ∧ (retrieve (some t) now s i).isOk = true
    ∧ (cleanupExpiredRequests (some t) now s).isOk = true
    ∧ (uuidParseOk i = true → ∀ req, lookupReq s i = some req →
        (approve none now s i).isOk = false
        ∧ (deny none now s i).isOk = false
        ∧ (retrieve none now s i).isOk = false)
    ∧ (cleanupExpiredRequests none now ((k, r) :: s2)).isOk = false := by
  refine ⟨?_, ?_, ?_, ?_, ?_, rfl⟩
  · by_cases hv : uuidParseOk i = false
    · simp [Except.isOk, Except.toBool, approve, hv]
    · cases hl : lookupReq s i with
      | none => simp [Except.isOk, Except.toBool, approve, hv, hl]
      | some req =>
        by_cases hex : now - req.createdAt > t
        · simp [Except.isOk, Except.toBool, approve, isRequestExpired, hv, hl, hex]
        · simp [Except.isOk, Except.toBool, approve, isRequestExpired, hv, hl, hex]
  · by_cases hv : uuidParseOk i = false
    · simp [Except.isOk, Except.toBool, deny, hv]
    · cases hl : lookupReq s i with
      | none => simp [Except.isOk, Except.toBool, deny, hv, hl]
      | some req =>
        by_cases hex : now - req.createdAt > t
        · simp [Except.isOk, Except.toBool, deny, isRequestExpired, hv, hl, hex]
        · simp [Except.isOk, Except.toBool, deny, isRequestExpired, hv, hl, hex]
  · by_cases hv : uuidParseOk i = false
    · simp [Except.isOk, Except.toBool, retrieve, hv]
    · cases hl : lookupReq s i with
      | none => simp [Except.isOk, Except.toBool, retrieve, hv, hl]
      | some req =>
        by_cases hex : now - req.createdAt > t
        · simp [Except.isOk, Except.toBool, retrieve, isRequestExpired, hv, hl, hex]
        · by_cases hap : req.approved
          · simp [Except.isOk, Except.toBool, retrieve, isRequestExpired, hv, hl, hex, hap]
          · simp [Except.isOk, Except.toBool, retrieve, isRequestExpired, hv, hl, hex, hap]
  · rw [cleanupExpiredRequests_ok]
    rfl
  · intro hv req hl
    have hv2 : ¬uuidParseOk i = false := by simp [hv]
    exact ⟨by simp [Except.isOk, Except.toBool, approve, isRequestExpired, hv2, hl],
      by simp [Except.isOk, Except.toBool, deny, isRequestExpired, hv2, hl],
      by simp [Except.isOk, Except.toBool, retrieve, isRequestExpired, hv2, hl]⟩

/-- Witness for `timeout_parse_fault_location`: the same live entry is
served fine with timeout 5 but faults with an unparseable timeout. -/
theorem timeout_parse_fault_location_witness :
    (approve (some 5) 1
      [("aaaaaaaa-aaaa-aaaa-aaaa-aaaaaaaaaaaa",
        { serverID := "s1", approved := false, createdAt := 0,
          ip := "10.0.0.1" })]
      "aaaaaaaa-aaaa-aaaa-aaaa-aaaaaaaaaaaa").isOk = true
    ∧ (approve none 1
        [("aaaaaaaa-aaaa-aaaa-aaaa-aaaaaaaaaaaa",
          { serverID := "s1", approved := false, createdAt := 0,
            ip := "10.0.0.1" })]
        "aaaaaaaa-aaaa-aaaa-aaaa-aaaaaaaaaaaa").isOk = false := by
  have h := timeout_parse_fault_location 5 1
    [("aaaaaaaa-aaaa-aaaa-aaaa-aaaaaaaaaaaa",
      { serverID := "s1", approved := false, createdAt := 0,
        ip := "10.0.0.1" })]
    "aaaaaaaa-aaaa-aaaa-aaaa-aaaaaaaaaaaa" "k0"
    { serverID := "s1", approved := false, createdAt := 0, ip := "10.0.0.1" }
    []
  exact ⟨h.1,
    (h.2.2.2.2.1 (by decide)
      { serverID := "s1", approved := false, createdAt := 0,
        ip := "10.0.0.1" } rfl).1⟩
